import Mathlib

/-!
Verification of the Time Hacked synchronized clock and cue scheduler
(`script.js`) against its natural-language specification.

The JavaScript modules are shallowly embedded as pure Lean functions:
module-level mutable state becomes explicit state records, asynchronous
fetch results become explicit parameters, `setTimeout` callbacks become
explicit step functions, and DOM writes become emitted events.  JS
numbers holding millisecond counts are modelled as `Int` (or `Nat` for
nonnegative epoch instants).
-/

/-! ## TimeSyncManager (time synchronization module) -/

/-- Mutable module state of `TimeSyncManager`: `authorityUtcMs`,
`perfNowAtSync`, `driftMs`, `isSynced`, `syncAttempts`. -/
structure TimeSyncState where
  authorityUtcMs : Int
  perfNowAtSync : Int
  driftMs : Int
  isSynced : Bool
  syncAttempts : Nat
  deriving DecidableEq

/-- Initial module state: all numeric fields 0, not synced. -/
def initialTimeSyncState : TimeSyncState :=
  { authorityUtcMs := 0, perfNowAtSync := 0, driftMs := 0,
    isSynced := false, syncAttempts := 0 }

/-- `MAX_SYNC_ATTEMPTS` constant from the source. -/
def MAX_SYNC_ATTEMPTS : Nat := 3

/-- `fetchAuthorityTime`: tries the ranked API list in order; an entry is
`some t` when that API responded ok and parsed to instant `t`, `none` when
the attempt failed (transport error or non-ok response).  If every API
fails it falls back to the system wall clock `dateNow`.  It never fails
outward. -/
def fetchAuthorityTime : List (Option Int) → Int → Int
  | [], dateNow => dateNow
  | some t :: _, _ => t
  | none :: rest, dateNow => fetchAuthorityTime rest dateNow

/-- Outcome of one `await fetchAuthorityTime()` inside `sync`'s `try`
block: either the awaited value, or a thrown exception (the `catch`
path). -/
inductive FetchResult
  | ok (t : Int)
  | err
  deriving DecidableEq

/-- Since `fetchAuthorityTime` is total (it falls back to `Date.now()`),
a real sync attempt always produces this non-throwing outcome. -/
def fetchOutcome (apiResults : List (Option Int)) (dateNow : Int) : FetchResult :=
  FetchResult.ok (fetchAuthorityTime apiResults dateNow)

/-- `sync`: increments `syncAttempts`, awaits the fetch; on success
records the snapshot (`authorityUtcMs := fetched`,
`perfNowAtSync := performance.now()`, `driftMs := 0`, `isSynced := true`,
`syncAttempts := 0`) and returns `true`; on a thrown exception retries
(after a 2000 ms delay) while `syncAttempts < MAX_SYNC_ATTEMPTS`, else
sets `isSynced := false` and returns `false`.  The list supplies one
`FetchResult` per attempt; the returned `List Nat` records the delays
slept between attempts. -/
def sync (st : TimeSyncState) (perfNow : Int) :
    List FetchResult → TimeSyncState × Bool × List Nat
  | [] => (st, false, [])
  | r :: rest =>
    let st1 := { st with syncAttempts := st.syncAttempts + 1 }
    match r with
    | FetchResult.ok t =>
      ({ st1 with authorityUtcMs := t, perfNowAtSync := perfNow,
                  driftMs := 0, isSynced := true, syncAttempts := 0 },
       true, [])
    | FetchResult.err =>
      if st1.syncAttempts < MAX_SYNC_ATTEMPTS then
        let q := sync st1 perfNow rest
        (q.1, q.2.1, 2000 :: q.2.2)
      else
        ({ st1 with isSynced := false }, false, [])

/-- `getCurrentUtcMs`: local wall clock when never synced, otherwise the
recorded authority instant advanced by the monotonic elapsed time plus
drift.  `perfNow` stands for `performance.now()`, `dateNow` for
`Date.now()`. -/
def getCurrentUtcMs (st : TimeSyncState) (perfNow dateNow : Int) : Int :=
  if !st.isSynced then dateNow
  else st.authorityUtcMs + (perfNow - st.perfNowAtSync) + st.driftMs

/-- `getCurrentDrift`: 0 when unsynced, else `Math.round(driftMs)` (the
rounding is the identity on the integer model). -/
def getCurrentDrift (st : TimeSyncState) : Int :=
  if !st.isSynced then 0 else st.driftMs

/-- States of `TimeSyncManager` reachable from the initial state by any
sequence of sync cycles (each with arbitrary monotonic-clock reading and
arbitrary per-attempt fetch outcomes). -/
inductive ReachableSync : TimeSyncState → Prop
  | init : ReachableSync initialTimeSyncState
  | step (st : TimeSyncState) (perfNow : Int) (rs : List FetchResult) :
      ReachableSync st → ReachableSync (sync st perfNow rs).1

/-! ## TimezoneManager (calendar projection)

The source delegates zone conversion to `Intl.DateTimeFormat`.  We model
that external collaborator for fixed-offset zones: a zone is an offset
in milliseconds added to the UTC instant, and the wall-clock components
are read off the shifted instant by ordinary calendar arithmetic. -/

/-- Wall-clock components `{hour, minute, second}` in a target zone. -/
structure ZoneComponents where
  hour : Nat
  minute : Nat
  second : Nat
  deriving DecidableEq

/-- Hour/minute pair returned by `getNextMinuteInTimezone`. -/
structure HourMinute where
  hour : Nat
  minute : Nat
  deriving DecidableEq

/-- `getTimeComponentsInTimezone`: project a UTC instant (ms since
epoch) to hour/minute/second in the zone with the given offset (model of
the `Intl.DateTimeFormat` formatter). -/
def getTimeComponentsInTimezone (utcMs : Nat) (offsetMs : Int) : ZoneComponents :=
  let localMs := ((utcMs : Int) + offsetMs).toNat
  let totalSec := localMs / 1000
  { hour := totalSec / 3600 % 24, minute := totalSec / 60 % 60, second := totalSec % 60 }

/-- `getNextMinuteInTimezone`: add one minute (60000 ms) to the absolute
instant and re-project, keeping hour and minute. -/
def getNextMinuteInTimezone (utcMs : Nat) (offsetMs : Int) : HourMinute :=
  let components := getTimeComponentsInTimezone (utcMs + 60000) offsetMs
  { hour := components.hour, minute := components.minute }

/-- `getCurrentUtcSeconds`: the UTC seconds-of-minute component of an
instant (what `Date.prototype.getUTCSeconds` returns for a nonnegative
epoch time). -/
def getCurrentUtcSeconds (utcMs : Nat) : Nat :=
  utcMs / 1000 % 60

/-- `String.padStart(2, "0")` for the numbers (0–99) that reach it. -/
def pad2 (n : Nat) : String :=
  if n < 10 then "0" ++ toString n else toString n

/-! ## VisualCueManager (flash and countdown module) -/

/-- Kind of a triggered flash: `triggerFlash()` defaults
(`type: regular`) versus `triggerFlash({type: countdown})`. -/
inductive FlashType
  | regular
  | countdown
  deriving DecidableEq

/-- A presentation effect emitted during one evaluation: a flash with
its pulse count, or a write to the `upcoming-text` DOM element. -/
inductive CueEvent
  | flash (count : Nat) (typ : FlashType)
  | setText (s : String)
  deriving DecidableEq

/-- Values of the `countdownMessageState` module variable other than
`null`. -/
inductive MsgState
  | standby
  | countdown
  | hack
  deriving DecidableEq

/-- Mutable module state of `VisualCueManager`: `lastFlashSecond`,
`lastCountdownSecond`, `countdownMessageState` (`none` = `null`),
`hackTimeoutMs` (the pending `setTimeout` delay, `none` when no timer is
armed), and the current content of the `upcoming-text` element. -/
structure CueState where
  lastFlashSecond : Int
  lastCountdownSecond : Int
  countdownMessageState : Option MsgState
  hackTimeoutMs : Option Nat
  upcomingText : String
  deriving DecidableEq

/-- Module state at construction: both edge-detection variables −1, no
message state, no pending timer. -/
def initialCueState : CueState :=
  { lastFlashSecond := -1, lastCountdownSecond := -1,
    countdownMessageState := none, hackTimeoutMs := none, upcomingText := "" }

/-- `shouldFlash`: flash at `:00` and `:30`. -/
def shouldFlash (seconds : Nat) : Bool :=
  seconds == 0 || seconds == 30

/-- The `isCountdownPeriod` condition of `updateCountdown`:
`seconds >= 50 || seconds === 0`. -/
def isCountdownPeriod (seconds : Nat) : Bool :=
  seconds ≥ 50 || seconds == 0

/-- The HACK announcement built at second 0 from the display-zone hour
and minute of the current instant. -/
def hackMessage (utcMs : Nat) (offsetMs : Int) : String :=
  let components := getTimeComponentsInTimezone utcMs offsetMs
  "HACK, THE TIME IS NOW " ++ pad2 components.hour ++ ":" ++ pad2 components.minute ++ " LOCAL"

/-- `updateCountdown(seconds)`: outside the countdown period
(`seconds >= 50 || seconds === 0`) clear a non-`hack` message state
(cancelling the HACK timer) and re-arm `lastCountdownSecond := -1`;
inside the period, act only when the second changed, fire a single
countdown-type flash, and set the stage text:  50–54 → STANDBY message,
55–59 → digit `60 − seconds`, 0 → HACK message with a fresh 5000 ms
hide timer.  `utcMs`/`offsetMs` stand for the clock and display zone the
HACK branch reads. -/
def updateCountdown (st : CueState) (seconds : Nat) (utcMs : Nat) (offsetMs : Int) :
    CueState × List CueEvent :=
  if !isCountdownPeriod seconds then
    let st1 :=
      if st.countdownMessageState ≠ none ∧ st.countdownMessageState ≠ some MsgState.hack then
        { st with countdownMessageState := none, hackTimeoutMs := none }
      else st
    ({ st1 with lastCountdownSecond := -1 }, [])
  else if (seconds : Int) == st.lastCountdownSecond then
    (st, [])
  else
    let st1 := { st with lastCountdownSecond := (seconds : Int) }
    if seconds ≥ 50 && seconds ≤ 54 then
      ({ st1 with upcomingText := "TEN SECONDS, STANDBY",
                  countdownMessageState := some MsgState.standby },
       [CueEvent.flash 1 FlashType.countdown, CueEvent.setText "TEN SECONDS, STANDBY"])
    else if seconds ≥ 55 && seconds ≤ 59 then
      let msg := toString (60 - seconds)
      ({ st1 with upcomingText := msg,
                  countdownMessageState := some MsgState.countdown },
       [CueEvent.flash 1 FlashType.countdown, CueEvent.setText msg])
    else if seconds == 0 then
      let msg := hackMessage utcMs offsetMs
      ({ st1 with upcomingText := msg,
                  countdownMessageState := some MsgState.hack,
                  hackTimeoutMs := some 5000 },
       [CueEvent.flash 1 FlashType.countdown, CueEvent.setText msg])
    else
      (st1, [CueEvent.flash 1 FlashType.countdown])

/-- `isInCountdownMode`: the countdown/HACK stage owns the announcement
line whenever `countdownMessageState` is not `null`. -/
def isInCountdownMode (st : CueState) : Bool :=
  st.countdownMessageState != none

/-- `processVisualCues`: derive the UTC second from the clock, run the
countdown state machine, then the 3-pulse flash edge-detected by
`lastFlashSecond`, which is reset to −1 whenever the second is outside
`{0, 30}`. -/
def processVisualCues (st : CueState) (utcMs : Nat) (offsetMs : Int) :
    CueState × List CueEvent :=
  let utcSeconds := getCurrentUtcSeconds utcMs
  let p1 := updateCountdown st utcSeconds utcMs offsetMs
  let p2 :=
    if shouldFlash utcSeconds && ((utcSeconds : Int) != p1.1.lastFlashSecond) then
      ({ p1.1 with lastFlashSecond := (utcSeconds : Int) },
       p1.2 ++ [CueEvent.flash 3 FlashType.regular])
    else p1
  if !shouldFlash utcSeconds then
    ({ p2.1 with lastFlashSecond := -1 }, p2.2)
  else p2

/-- Run `processVisualCues` over a list of instants, collecting the
events of each evaluation. -/
def runCue (st : CueState) (inputs : List Nat) (offsetMs : Int) :
    CueState × List (List CueEvent) :=
  match inputs with
  | [] => (st, [])
  | u :: rest =>
    let p := processVisualCues st u offsetMs
    let q := runCue p.1 rest offsetMs
    (q.1, p.2 :: q.2)

/-- The `setText` payloads of an event list. -/
def setTexts (evs : List CueEvent) : List String :=
  evs.filterMap fun e =>
    match e with
    | CueEvent.setText s => some s
    | _ => none

/-- Whether an event is the default 3-pulse regular flash of
`triggerFlash()`. -/
def isFlash3 (e : CueEvent) : Bool :=
  e == CueEvent.flash 3 FlashType.regular

/-- Number of 3-pulse regular flashes in an event list. -/
def countFlash3 (evs : List CueEvent) : Nat :=
  (evs.filter isFlash3).length

/-! ## DisplayManager (upcoming-text computation) -/

/-- The default announcement string `updateUpcomingText` computes when
the scheduler does not own the line: the one-minute text when more than
30 seconds remain to the next display-zone minute, else the 30-second
variant. -/
def defaultUpcomingText (utcMs : Nat) (offsetMs : Int) : String :=
  let components := getTimeComponentsInTimezone utcMs offsetMs
  let secondsToMinute := 60 - components.second
  if secondsToMinute > 30 then
    let nextMinute := getNextMinuteInTimezone utcMs offsetMs
    "IN ONE MINUTE, THE TIME WILL BE " ++ pad2 nextMinute.hour ++ ":" ++ pad2 nextMinute.minute ++ " LOCAL"
  else
    "30 SECONDS TO HACK"

/-- `updateUpcomingText`: skipped entirely while `isInCountdownMode`;
otherwise writes the default announcement to the `upcoming-text`
element. -/
def updateUpcomingText (st : CueState) (utcMs : Nat) (offsetMs : Int) : CueState :=
  if isInCountdownMode st then st
  else { st with upcomingText := defaultUpcomingText utcMs offsetMs }

/-- The body of the `setTimeout` callback armed in the HACK branch,
executed when its 5000 ms delay elapses: if the message state is still
`hack`, clear it and recompute the default upcoming text
(`DisplayManager.updateUpcomingTextNow`); finally drop the timer
handle. -/
def fireHackTimeout (st : CueState) (utcMs : Nat) (offsetMs : Int) : CueState :=
  let st1 :=
    if st.countdownMessageState == some MsgState.hack then
      updateUpcomingText { st with countdownMessageState := none } utcMs offsetMs
    else st
  { st1 with hackTimeoutMs := none }

/-! ## Helper lemmas -/

/-- If every ranked API attempt fails, `fetchAuthorityTime` returns the
local wall-clock instant. -/
theorem fetchAuthorityTime_of_all_fail (apis : List (Option Int)) (dateNow : Int)
    (h : apis.all Option.isNone = true) : fetchAuthorityTime apis dateNow = dateNow := by
  induction apis with
  | nil => rfl
  | cons a rest ih =>
    cases a with
    | none => simpa [fetchAuthorityTime] using ih (by simpa using h)
    | some t => simp [List.all_cons] at h

/-- A sync cycle never makes `driftMs` nonzero. -/
theorem sync_driftMs_eq_zero (rs : List FetchResult) (st : TimeSyncState) (perfNow : Int)
    (h : st.driftMs = 0) : ((sync st perfNow rs).1).driftMs = 0 := by
  induction rs generalizing st with
  | nil => simpa [sync] using h
  | cons r rest ih =>
    cases r with
    | ok t => simp [sync]
    | err =>
      simp only [sync]
      split
      · exact ih _ (by simpa using h)
      · simpa using h

/-! ## Claim theorems -/

/-- C1: `getCurrentUtcMs` returns
`authorityUtcMs + (performance.now() − perfNowAtSync) + driftMs` once a
sync has succeeded, and the local wall-clock reading `Date.now()`
directly when never synced. -/
theorem C1_getCurrentUtcMs_formula (st : TimeSyncState) (perfNow dateNow : Int) :
    (st.isSynced = true →
      getCurrentUtcMs st perfNow dateNow
        = st.authorityUtcMs + (perfNow - st.perfNowAtSync) + st.driftMs) ∧
    (st.isSynced = false → getCurrentUtcMs st perfNow dateNow = dateNow) := by
  constructor <;> intro h <;> simp [getCurrentUtcMs, h]

/-- Witness for C1 at a concrete synced state and at the initial
unsynced state. -/
theorem C1_witness :
    getCurrentUtcMs ⟨100, 10, 0, true, 0⟩ 25 999 = 100 + (25 - 10) + 0 ∧
    getCurrentUtcMs initialTimeSyncState 25 999 = 999 :=
  ⟨(C1_getCurrentUtcMs_formula ⟨100, 10, 0, true, 0⟩ 25 999).1 rfl,
   (C1_getCurrentUtcMs_formula initialTimeSyncState 25 999).2 rfl⟩

/-- C5 counterexample: with every endpoint failing, a sync cycle sets
`isSynced` to `true` (the local-clock fallback is treated as a
successful sync), so `SyncState` does not remain UNSYNCED as claimed. -/
theorem C5_counterexample :
    initialTimeSyncState.isSynced = false ∧
    ((sync initialTimeSyncState 100 [fetchOutcome [none, none] 777]).1).isSynced = true := by
  exact ⟨rfl, rfl⟩

/-- C5 (amended): if every endpoint fails, the fetch falls back to the
local wall clock, the cycle completes without any exception reaching the
caller (the embedded `sync` is a total function returning `true`), and
`now()` afterwards advances one-for-one with local elapsed monotonic
time — but `isSynced` becomes `true`, not UNSYNCED. -/
theorem C5_always_fail_degradation (st : TimeSyncState) (perfNow dateNow : Int)
    (apis : List (Option Int)) (hfail : apis.all Option.isNone = true) :
    (sync st perfNow [fetchOutcome apis dateNow]).2.1 = true ∧
    ((sync st perfNow [fetchOutcome apis dateNow]).1).isSynced = true ∧
    ((sync st perfNow [fetchOutcome apis dateNow]).1).authorityUtcMs = dateNow ∧
    ((sync st perfNow [fetchOutcome apis dateNow]).1).perfNowAtSync = perfNow ∧
    ∀ p2 d2 : Int,
      getCurrentUtcMs (sync st perfNow [fetchOutcome apis dateNow]).1 p2 d2
        = dateNow + (p2 - perfNow) := by
  have hf := fetchAuthorityTime_of_all_fail apis dateNow hfail
  simp [sync, fetchOutcome, hf, getCurrentUtcMs]

/-- Witness for C5 (amended) with both ranked endpoints failing. -/
theorem C5_witness :
    ((sync initialTimeSyncState 100 [fetchOutcome [none, none] 777]).1).isSynced = true ∧
    getCurrentUtcMs (sync initialTimeSyncState 100 [fetchOutcome [none, none] 777]).1 150 3
      = 777 + (150 - 100) := by
  have h := C5_always_fail_degradation initialTimeSyncState 100 777 [none, none] (by decide)
  exact ⟨h.2.1, h.2.2.2.2 150 3⟩

/-- C7: `getNextMinuteInTimezone` is exactly the hour/minute projection
of `getTimeComponentsInTimezone` at `instant + 60000 ms`, and at
23:59:30 UTC in a zone with offset 0 it returns 00:00, rolling over the
hour and day. -/
theorem C7_nextMinuteBoundary (utcMs : Nat) (offsetMs : Int) :
    getNextMinuteInTimezone utcMs offsetMs
      = { hour := (getTimeComponentsInTimezone (utcMs + 60000) offsetMs).hour,
          minute := (getTimeComponentsInTimezone (utcMs + 60000) offsetMs).minute } ∧
    getNextMinuteInTimezone 86370000 0 = { hour := 0, minute := 0 } :=
  ⟨rfl, by decide⟩

/-- C8 counterexample: a previously synced state subjected to a sync
cycle whose three attempts all throw ends with `isSynced = false` — the
`SyncState` is not left unchanged by an exhausted cycle. -/
theorem C8_counterexample :
    (⟨1000000, 500, 0, true, 0⟩ : TimeSyncState).isSynced = true ∧
    ((sync ⟨1000000, 500, 0, true, 0⟩ 600
        [FetchResult.err, FetchResult.err, FetchResult.err]).1).isSynced = false := by
  exact ⟨rfl, rfl⟩

/-- C8 (amended): a cycle starting with `syncAttempts = 0` whose
attempts all throw performs exactly 3 attempts separated by two 2000 ms
delays, leaves `authorityUtcMs`, `perfNowAtSync` and `driftMs`
untouched, but sets `isSynced := false` and leaves `syncAttempts` at 3 —
after which the next all-failing cycle gives up after a single attempt,
because the counter is only reset on success. -/
theorem C8_retry_budget (st : TimeSyncState) (perfNow : Int) (h : st.syncAttempts = 0) :
    sync st perfNow [FetchResult.err, FetchResult.err, FetchResult.err]
      = ({ st with isSynced := false, syncAttempts := 3 }, false, [2000, 2000]) ∧
    ∀ st2 : TimeSyncState, st2.syncAttempts = 3 →
      sync st2 perfNow [FetchResult.err]
        = ({ st2 with isSynced := false, syncAttempts := 4 }, false, []) := by
  constructor
  · obtain ⟨au, pf, dr, sy, n⟩ := st
    simp only at h
    subst h
    rfl
  · intro st2 h2
    obtain ⟨au, pf, dr, sy, n⟩ := st2
    simp only at h2
    subst h2
    rfl

/-- Witness for C8 (amended) at a concrete previously-synced state. -/
theorem C8_witness :
    sync ⟨1000000, 500, 0, true, 0⟩ 600 [FetchResult.err, FetchResult.err, FetchResult.err]
      = (⟨1000000, 500, 0, false, 3⟩, false, [2000, 2000]) ∧
    sync ⟨1000000, 500, 0, false, 3⟩ 600 [FetchResult.err]
      = (⟨1000000, 500, 0, false, 4⟩, false, []) := by
  have h := C8_retry_budget (⟨1000000, 500, 0, true, 0⟩ : TimeSyncState) 600 rfl
  exact ⟨h.1, h.2 ⟨1000000, 500, 0, false, 3⟩ rfl⟩

/-- C10: in every reachable `TimeSyncManager` state, `driftMs = 0`,
`getCurrentDrift` returns 0, and the drift term never changes
`getCurrentUtcMs`: the clock reading is exactly
`authorityUtcMs + (perfNow − perfNowAtSync)` when synced and the local
wall clock otherwise. -/
theorem C10_drift_always_zero (st : TimeSyncState) (h : ReachableSync st) :
    st.driftMs = 0 ∧ getCurrentDrift st = 0 ∧
    ∀ perfNow dateNow : Int,
      getCurrentUtcMs st perfNow dateNow
        = if st.isSynced then st.authorityUtcMs + (perfNow - st.perfNowAtSync)
          else dateNow := by
  have hd : st.driftMs = 0 := by
    induction h with
    | init => rfl
    | step st2 p rs _ ih => exact sync_driftMs_eq_zero rs st2 p ih
  refine ⟨hd, ?_, ?_⟩
  · cases hs : st.isSynced <;> simp [getCurrentDrift, hs, hd]
  · intro p d
    cases hs : st.isSynced <;> simp [getCurrentUtcMs, hs, hd]

/-- Witness for C10 at the state reached by one successful sync. -/
theorem C10_witness :
    ((sync initialTimeSyncState 100 [FetchResult.ok 5]).1).driftMs = 0 ∧
    getCurrentDrift (sync initialTimeSyncState 100 [FetchResult.ok 5]).1 = 0 ∧
    getCurrentUtcMs (sync initialTimeSyncState 100 [FetchResult.ok 5]).1 150 7
      = (if ((sync initialTimeSyncState 100 [FetchResult.ok 5]).1).isSynced
         then ((sync initialTimeSyncState 100 [FetchResult.ok 5]).1).authorityUtcMs
                + (150 - ((sync initialTimeSyncState 100 [FetchResult.ok 5]).1).perfNowAtSync)
         else 7) := by
  have h := C10_drift_always_zero _
    (ReachableSync.step initialTimeSyncState 100 [FetchResult.ok 5] ReachableSync.init)
  exact ⟨h.1, h.2.1, h.2.2 150 7⟩

/-! ## Cue scheduler helper lemmas -/

/-- `updateCountdown` never writes `lastFlashSecond`. -/
theorem updateCountdown_lastFlashSecond (st : CueState) (s u : Nat) (off : Int) :
    ((updateCountdown st s u off).1).lastFlashSecond = st.lastFlashSecond := by
  unfold updateCountdown
  split_ifs <;> rfl

/-- `countFlash3` distributes over list append. -/
theorem countFlash3_append (xs ys : List CueEvent) :
    countFlash3 (xs ++ ys) = countFlash3 xs + countFlash3 ys := by
  simp [countFlash3, List.filter_append]

/-- `updateCountdown` never emits a 3-pulse regular flash (its only
flash is the single countdown-type pulse). -/
theorem countFlash3_updateCountdown (st : CueState) (s u : Nat) (off : Int) :
    countFlash3 (updateCountdown st s u off).2 = 0 := by
  unfold updateCountdown
  split_ifs <;> rfl

/-- Re-writing `lastCountdownSecond` with its current value is the
identity. -/
theorem CueState_set_lc_self (st : CueState) (v : Int) (h : st.lastCountdownSecond = v) :
    { st with lastCountdownSecond := v } = st := by
  cases st
  cases h
  rfl

/-- Re-writing `lastFlashSecond` with its current value is the
identity. -/
theorem CueState_set_lf_self (st : CueState) (v : Int) (h : st.lastFlashSecond = v) :
    { st with lastFlashSecond := v } = st := by
  cases st
  cases h
  rfl

/-- Inside the countdown period, an evaluation whose second equals
`lastCountdownSecond` is a no-op. -/
theorem updateCountdown_noop_in_period (st : CueState) (s u : Nat) (off : Int)
    (hp : isCountdownPeriod s = true) (h : st.lastCountdownSecond = (s : Int)) :
    updateCountdown st s u off = (st, []) := by
  unfold updateCountdown
  simp [hp, h]

/-- Outside the countdown period, an evaluation from an already-cleared
state (`lastCountdownSecond = −1`, message state `null` or `hack`) is a
no-op. -/
theorem updateCountdown_noop_out_period (st : CueState) (s u : Nat) (off : Int)
    (hp : isCountdownPeriod s = false) (hlc : st.lastCountdownSecond = -1)
    (hcms : st.countdownMessageState = none ∨ st.countdownMessageState = some MsgState.hack) :
    updateCountdown st s u off = (st, []) := by
  have hcond : ¬(st.countdownMessageState ≠ none ∧ st.countdownMessageState ≠ some MsgState.hack) := by
    rcases hcms with h | h <;> simp [h]
  have he := CueState_set_lc_self st (-1) hlc
  unfold updateCountdown
  simp [hp, hcond, he]

/-- Inside the countdown period, `lastCountdownSecond` equals the
current second after any evaluation. -/
theorem updateCountdown_lc_in_period (st : CueState) (s u : Nat) (off : Int)
    (hp : isCountdownPeriod s = true) :
    ((updateCountdown st s u off).1).lastCountdownSecond = (s : Int) := by
  unfold updateCountdown
  simp only [hp, Bool.not_true, Bool.false_eq_true, if_false]
  split_ifs with h1 <;> try rfl
  · exact (by simpa using h1 : (s : Int) = st.lastCountdownSecond).symm

/-- Outside the countdown period, an evaluation re-arms
`lastCountdownSecond` to −1 and leaves the message state `null` or
`hack`. -/
theorem updateCountdown_out_period_state (st : CueState) (s u : Nat) (off : Int)
    (hp : isCountdownPeriod s = false) :
    ((updateCountdown st s u off).1).lastCountdownSecond = -1 ∧
    (((updateCountdown st s u off).1).countdownMessageState = none ∨
      ((updateCountdown st s u off).1).countdownMessageState = some MsgState.hack) := by
  unfold updateCountdown
  simp only [hp, Bool.not_false, if_true]
  split_ifs with h
  · simp
  · constructor
    · trivial
    · by_cases hn : st.countdownMessageState = none
      · exact Or.inl hn
      · right
        by_cases hh : st.countdownMessageState = some MsgState.hack
        · exact hh
        · exact absurd ⟨hn, hh⟩ h

/-- The flash section of `processVisualCues` does not alter the
countdown-owned fields of the state. -/
theorem pvc_countdown_fields (st : CueState) (u : Nat) (off : Int) :
    ((processVisualCues st u off).1).lastCountdownSecond
        = ((updateCountdown st (getCurrentUtcSeconds u) u off).1).lastCountdownSecond ∧
    ((processVisualCues st u off).1).countdownMessageState
        = ((updateCountdown st (getCurrentUtcSeconds u) u off).1).countdownMessageState ∧
    ((processVisualCues st u off).1).hackTimeoutMs
        = ((updateCountdown st (getCurrentUtcSeconds u) u off).1).hackTimeoutMs ∧
    ((processVisualCues st u off).1).upcomingText
        = ((updateCountdown st (getCurrentUtcSeconds u) u off).1).upcomingText := by
  simp only [processVisualCues]
  split_ifs <;> simp

/-- After one evaluation, `lastFlashSecond` is the current second when
it is 0 or 30, and −1 otherwise. -/
theorem pvc_lastFlash (st : CueState) (u : Nat) (off : Int) :
    ((processVisualCues st u off).1).lastFlashSecond
      = (if shouldFlash (getCurrentUtcSeconds u)
         then (getCurrentUtcSeconds u : Int) else -1) := by
  have hA := updateCountdown_lastFlashSecond st (getCurrentUtcSeconds u) u off
  unfold processVisualCues
  cases hsf : shouldFlash (getCurrentUtcSeconds u) with
  | false => simp [hsf]
  | true =>
    cases hbe : ((getCurrentUtcSeconds u : Int) != st.lastFlashSecond) with
    | false =>
      have heq : ((getCurrentUtcSeconds u : Int)) = st.lastFlashSecond := by simpa using hbe
      simp [hsf, hbe, hA, heq]
    | true => simp [hsf, hbe, hA]

/-- C2: per evaluation, the 3-pulse regular flash fires exactly once
when the observed second is 0 or 30 and differs from `lastFlashSecond`
(never otherwise), `lastFlashSecond` is set to the second while it is in
`{0, 30}` and reset to −1 once it leaves, and the seconds sequence
58, 59, 0, 1 yields exactly one 3-pulse flash, at the step where the
second becomes 0. -/
theorem C2_flash_edge_detection (st : CueState) (utcMs : Nat) (offsetMs : Int) :
    countFlash3 (processVisualCues st utcMs offsetMs).2
      = (if shouldFlash (getCurrentUtcSeconds utcMs)
            && ((getCurrentUtcSeconds utcMs : Int) != st.lastFlashSecond)
         then 1 else 0) ∧
    (processVisualCues st utcMs offsetMs).1.lastFlashSecond
      = (if shouldFlash (getCurrentUtcSeconds utcMs)
         then (getCurrentUtcSeconds utcMs : Int) else -1) ∧
    (runCue initialCueState [58000, 59000, 60000, 61000] 0).2.map countFlash3
      = [0, 0, 1, 0] := by
  refine ⟨?_, pvc_lastFlash st utcMs offsetMs, rfl⟩
  have hA := updateCountdown_lastFlashSecond st (getCurrentUtcSeconds utcMs) utcMs offsetMs
  have hB := countFlash3_updateCountdown st (getCurrentUtcSeconds utcMs) utcMs offsetMs
  unfold processVisualCues
  cases hsf : shouldFlash (getCurrentUtcSeconds utcMs) with
  | false => simp [hsf, hA, hB]
  | true =>
    cases hbe : ((getCurrentUtcSeconds utcMs : Int) != st.lastFlashSecond) with
    | false =>
      have heq : ((getCurrentUtcSeconds utcMs : Int)) = st.lastFlashSecond := by
        simpa using hbe
      simp [hsf, hA, hB, heq]
    | true =>
      have h1 : countFlash3 ((updateCountdown st (getCurrentUtcSeconds utcMs) utcMs offsetMs).2
          ++ [CueEvent.flash 3 FlashType.regular]) = 1 := by
        rw [countFlash3_append, hB]; rfl
      simp [hsf, hA, hbe, h1]

/-- C3 counterexample: at second 0 the announcement actually written is
the string with a trailing " LOCAL" suffix, not the bare
"HACK, THE TIME IS NOW HH:MM" the claim states. -/
theorem C3_counterexample_hack_text :
    (updateCountdown initialCueState 0 60000 0).1.upcomingText
      = "HACK, THE TIME IS NOW 00:01 LOCAL" ∧
    (updateCountdown initialCueState 0 60000 0).1.upcomingText
      ≠ "HACK, THE TIME IS NOW 00:01" := by
  constructor
  · rfl
  · decide

/-- C3 (amended): an evaluation in the active window at a changed second
sets "TEN SECONDS, STANDBY" for 50–54, the digit `60 − s` for 55–59, and
at 0 the HACK message "HACK, THE TIME IS NOW HH:MM LOCAL" built from the
display-zone hour and minute; the seconds sequence 50, …, 59, 0 writes
STANDBY five times, then "5","4","3","2","1", then the HACK message. -/
theorem C3_countdown_sequence (st : CueState) (s utcMs : Nat) (offsetMs : Int)
    (hne : (s : Int) ≠ st.lastCountdownSecond) :
    ((50 ≤ s ∧ s ≤ 54) →
        (updateCountdown st s utcMs offsetMs).1.upcomingText = "TEN SECONDS, STANDBY") ∧
    ((55 ≤ s ∧ s ≤ 59) →
        (updateCountdown st s utcMs offsetMs).1.upcomingText = toString (60 - s)) ∧
    (s = 0 →
        (updateCountdown st s utcMs offsetMs).1.upcomingText = hackMessage utcMs offsetMs) ∧
    ((runCue initialCueState
        [50000, 51000, 52000, 53000, 54000, 55000, 56000, 57000, 58000, 59000, 60000] 0).2.map
      setTexts).flatten
      = ["TEN SECONDS, STANDBY", "TEN SECONDS, STANDBY", "TEN SECONDS, STANDBY",
         "TEN SECONDS, STANDBY", "TEN SECONDS, STANDBY", "5", "4", "3", "2", "1",
         "HACK, THE TIME IS NOW 00:01 LOCAL"] := by
  have hbeq : ((s : Int) == st.lastCountdownSecond) = false := by
    simpa using hne
  refine ⟨?_, ?_, ?_, rfl⟩
  · rintro ⟨h1, h2⟩
    have hp : isCountdownPeriod s = true := by simp [isCountdownPeriod]; omega
    unfold updateCountdown
    simp [hp, hbeq, h1, h2]
  · rintro ⟨h1, h2⟩
    have hp : isCountdownPeriod s = true := by simp [isCountdownPeriod]; omega
    have h54 : ¬ s ≤ 54 := by omega
    unfold updateCountdown
    simp [hp, hbeq, h1, h2, h54]
  · rintro rfl
    have hne0 : (0 : Int) ≠ st.lastCountdownSecond := by simpa using hne
    unfold updateCountdown
    simp [isCountdownPeriod, hbeq, hne0]

/-- Witness for C3 (amended) at seconds 52, 57 and 0 from the initial
state. -/
theorem C3_witness :
    (updateCountdown initialCueState 52 52000 0).1.upcomingText = "TEN SECONDS, STANDBY" ∧
    (updateCountdown initialCueState 57 57000 0).1.upcomingText = toString (60 - 57) ∧
    (updateCountdown initialCueState 0 60000 0).1.upcomingText = hackMessage 60000 0 := by
  refine ⟨(C3_countdown_sequence initialCueState 52 52000 0 (by decide)).1 ⟨by decide, by decide⟩,
          (C3_countdown_sequence initialCueState 57 57000 0 (by decide)).2.1 ⟨by decide, by decide⟩,
          (C3_countdown_sequence initialCueState 0 60000 0 (by decide)).2.2.1 rfl⟩

/-- C4: once the HACK stage is entered it is immune to second-value
changes — an evaluation at any second 1…49 leaves the `hack` message
state, the announcement text and the pending timer untouched; entering
second 0 arms a 5000 ms timer; and when that timer fires while the
stage is still `hack`, the stage reverts to `none` and the default
upcoming-time announcement is recomputed. -/
theorem C4_hack_persistence :
    (∀ (st : CueState) (utcMs : Nat) (offsetMs : Int),
        1 ≤ getCurrentUtcSeconds utcMs → getCurrentUtcSeconds utcMs ≤ 49 →
        st.countdownMessageState = some MsgState.hack →
        (processVisualCues st utcMs offsetMs).1.countdownMessageState = some MsgState.hack ∧
        (processVisualCues st utcMs offsetMs).1.upcomingText = st.upcomingText ∧
        (processVisualCues st utcMs offsetMs).1.hackTimeoutMs = st.hackTimeoutMs) ∧
    (∀ (st : CueState) (utcMs : Nat) (offsetMs : Int),
        (0 : Int) ≠ st.lastCountdownSecond →
        (updateCountdown st 0 utcMs offsetMs).1.hackTimeoutMs = some 5000) ∧
    (∀ (st : CueState) (utcMs : Nat) (offsetMs : Int),
        st.countdownMessageState = some MsgState.hack →
        fireHackTimeout st utcMs offsetMs
          = { st with countdownMessageState := none, hackTimeoutMs := none,
                      upcomingText := defaultUpcomingText utcMs offsetMs }) := by
  refine ⟨?_, ?_, ?_⟩
  · intro st utcMs offsetMs h1 h49 hh
    have hp : isCountdownPeriod (getCurrentUtcSeconds utcMs) = false := by
      simp [isCountdownPeriod]; omega
    have hcond : ¬(st.countdownMessageState ≠ none ∧
        st.countdownMessageState ≠ some MsgState.hack) := by simp [hh]
    have hu : (updateCountdown st (getCurrentUtcSeconds utcMs) utcMs offsetMs).1
        = { st with lastCountdownSecond := -1 } := by
      unfold updateCountdown
      simp [hp, hcond]
    have hf := pvc_countdown_fields st utcMs offsetMs
    refine ⟨?_, ?_, ?_⟩
    · rw [hf.2.1, hu]; exact hh
    · rw [hf.2.2.2, hu]
    · rw [hf.2.2.1, hu]
  · intro st utcMs offsetMs hne
    have hbeq : ((0 : Int) == st.lastCountdownSecond) = false := by simpa using hne
    unfold updateCountdown
    simp [isCountdownPeriod, hbeq, hne]
  · intro st utcMs offsetMs hh
    unfold fireHackTimeout updateUpcomingText isInCountdownMode
    simp [hh]

/-- Witness for C4: the HACK state survives an evaluation at second 2,
second 0 arms the 5000 ms timer, and firing the timer reverts the state
and recomputes the default text. -/
theorem C4_witness :
    (processVisualCues ⟨-1, -1, some MsgState.hack, some 5000, "H"⟩ 2000 0).1.countdownMessageState
        = some MsgState.hack ∧
    (processVisualCues ⟨-1, -1, some MsgState.hack, some 5000, "H"⟩ 2000 0).1.upcomingText = "H" ∧
    (updateCountdown initialCueState 0 60000 0).1.hackTimeoutMs = some 5000 ∧
    fireHackTimeout ⟨-1, -1, some MsgState.hack, some 5000, "H"⟩ 65000 0
      = { (⟨-1, -1, some MsgState.hack, some 5000, "H"⟩ : CueState) with
          countdownMessageState := none, hackTimeoutMs := none,
          upcomingText := defaultUpcomingText 65000 0 } := by
  refine ⟨(C4_hack_persistence.1 _ 2000 0 (by decide) (by decide) rfl).1,
          (C4_hack_persistence.1 _ 2000 0 (by decide) (by decide) rfl).2.1,
          C4_hack_persistence.2.1 initialCueState 60000 0 (by decide),
          C4_hack_persistence.2.2 _ 65000 0 rfl⟩

/-- C6: evaluating the scheduler a second time at the same instant is a
no-op — the repeated evaluation emits no event at all (no flash of
either kind, no text write) and returns the state unchanged. -/
theorem C6_scheduler_idempotent (st : CueState) (utcMs : Nat) (offsetMs : Int) :
    processVisualCues (processVisualCues st utcMs offsetMs).1 utcMs offsetMs
      = ((processVisualCues st utcMs offsetMs).1, []) := by
  have hf := pvc_countdown_fields st utcMs offsetMs
  have hlf := pvc_lastFlash st utcMs offsetMs
  have hUC : updateCountdown (processVisualCues st utcMs offsetMs).1
      (getCurrentUtcSeconds utcMs) utcMs offsetMs
      = ((processVisualCues st utcMs offsetMs).1, []) := by
    by_cases hp : isCountdownPeriod (getCurrentUtcSeconds utcMs) = true
    · refine updateCountdown_noop_in_period _ _ _ _ hp ?_
      rw [hf.1]
      exact updateCountdown_lc_in_period st (getCurrentUtcSeconds utcMs) utcMs offsetMs hp
    · have hp2 : isCountdownPeriod (getCurrentUtcSeconds utcMs) = false := by
        simpa using hp
      have ho := updateCountdown_out_period_state st (getCurrentUtcSeconds utcMs) utcMs offsetMs hp2
      refine updateCountdown_noop_out_period _ _ _ _ hp2 ?_ ?_
      · rw [hf.1]; exact ho.1
      · rw [hf.2.1]; exact ho.2
  conv_lhs => rw [processVisualCues]
  rw [hUC]
  cases hsf : shouldFlash (getCurrentUtcSeconds utcMs) with
  | false =>
    have hm1 : ((processVisualCues st utcMs offsetMs).1).lastFlashSecond = -1 := by
      rw [hlf, hsf]; rfl
    simp [hsf, CueState_set_lf_self _ _ hm1]
  | true =>
    have hs : ((processVisualCues st utcMs offsetMs).1).lastFlashSecond
        = (getCurrentUtcSeconds utcMs : Int) := by
      rw [hlf, hsf]; rfl
    simp [hsf, hs]

/-- C9: when the scheduler does not own the announcement line,
`updateUpcomingText` writes the one-minute announcement (with the next
display-zone minute) when more than 30 seconds remain to the next
minute, else the 30-second variant "30 SECONDS TO HACK"; while the
countdown/HACK stage owns the line, the function returns without
mutating anything. -/
theorem C9_default_announcement :
    (∀ (st : CueState) (utcMs : Nat) (offsetMs : Int),
        isInCountdownMode st = false →
        (updateUpcomingText st utcMs offsetMs).upcomingText
          = (if 60 - (getTimeComponentsInTimezone utcMs offsetMs).second > 30
             then "IN ONE MINUTE, THE TIME WILL BE "
                    ++ pad2 (getNextMinuteInTimezone utcMs offsetMs).hour ++ ":"
                    ++ pad2 (getNextMinuteInTimezone utcMs offsetMs).minute ++ " LOCAL"
             else "30 SECONDS TO HACK")) ∧
    (∀ (st : CueState) (utcMs : Nat) (offsetMs : Int),
        isInCountdownMode st = true → updateUpcomingText st utcMs offsetMs = st) := by
  constructor
  · intro st utcMs offsetMs h
    unfold updateUpcomingText defaultUpcomingText
    simp [h]
  · intro st utcMs offsetMs h
    unfold updateUpcomingText
    simp [h]

/-- Witness for C9 at second 10 (more than 30 s remain) and at a state
owned by the HACK stage. -/
theorem C9_witness :
    (updateUpcomingText initialCueState 10000 0).upcomingText
      = (if 60 - (getTimeComponentsInTimezone 10000 0).second > 30
         then "IN ONE MINUTE, THE TIME WILL BE " ++ pad2 (getNextMinuteInTimezone 10000 0).hour
                ++ ":" ++ pad2 (getNextMinuteInTimezone 10000 0).minute ++ " LOCAL"
         else "30 SECONDS TO HACK") ∧
    updateUpcomingText ⟨-1, -1, some MsgState.hack, none, "H"⟩ 10000 0
      = ⟨-1, -1, some MsgState.hack, none, "H"⟩ := by
  exact ⟨C9_default_announcement.1 initialCueState 10000 0 rfl,
         C9_default_announcement.2 _ 10000 0 rfl⟩
